import Mathlib

/-!
# Verification of the webhook-to-Pub/Sub relay (`publisher/function.go`)

A shallow embedding of the `Publish` HTTP handler, its dead-letter helper
`pushToDead` and the signature check `IsValidSignatureForStringBody`.

* Go `byte` values are natural numbers (below 256 in Go); a Go `string` /
  `[]byte` is a list of bytes. The theorems hold for all lists of naturals,
  hence for all byte strings.
* The message bus, the request body reader and `json.Marshal` are external
  collaborators: the bus is an arbitrary history-dependent oracle, the body
  reader yields either an error or the bytes, the serializer is a parameter.
* The handler is written in explicit state-passing style over the response
  writer and an event trace that records every body read and publish call.
-/

namespace Publisher

/-! ## Strings -/

/-- A Go `byte`. -/
abbrev Byte := Nat

/-- A Go `string` (equally a `[]byte`): a finite sequence of bytes. -/
abbrev GoString := List Byte

/-- The byte string of an ASCII literal. -/
def ascii (s : String) : GoString := s.toList.map Char.toNat

/-- The byte `'/'`. -/
def slash : Byte := 47

/-- Go `strings.HasPrefix(s, prefix)`. -/
def hasPrefix (s pre : GoString) : Bool :=
  s.length ≥ pre.length && s.take pre.length == pre

/-- Go `strings.HasSuffix(s, suffix)`. -/
def hasSuffix (s suf : GoString) : Bool :=
  s.length ≥ suf.length && s.drop (s.length - suf.length) == suf

/-- Go `strings.TrimPrefix(s, prefix)`: removes one occurrence of the prefix,
if present. -/
def trimPrefix (s pre : GoString) : GoString :=
  if hasPrefix s pre then s.drop pre.length else s

/-- Go `strings.TrimSuffix(s, suffix)`: removes one occurrence of the suffix,
if present. -/
def trimSuffix (s suf : GoString) : GoString :=
  if hasSuffix s suf then s.take (s.length - suf.length) else s

/-- Go `strings.IndexByte(s, c)`: position of the first `c` in `s`, if any. -/
def indexByte (c : Byte) : GoString → Option Nat
  | [] => none
  | x :: rest => if x = c then some 0 else (indexByte c rest).map (· + 1)

/-- The loop of Go `strings.Split(s, sep)` for a one-byte separator: while the
separator occurs (`m := Index(s, sep)`), emit `s[:m]` and continue with
`s[m+1:]`; the remainder is the last element. The fuel bounds the number of
iterations (Go uses `Count(s, sep)`). -/
def splitLoop (sep : Byte) : Nat → GoString → List GoString
  | 0, s => [s]
  | fuel + 1, s =>
    match indexByte sep s with
    | none => [s]
    | some m => s.take m :: splitLoop sep fuel (s.drop (m + 1))

/-- Go `strings.Split(s, string(sep))` for a one-byte separator. -/
def split (s : GoString) (sep : Byte) : List GoString :=
  splitLoop sep (s.count sep) s

/-! ## Topic resolution (lines 84–91 of `Publish`) -/

/-- The topic computed by `Publish` from `r.URL.Path`:
```
var topic string
path = strings.TrimSuffix(strings.TrimPrefix(path, "/"), "/")
segs := strings.Split(path, "/")
if len(segs) > 0 { topic = segs[0] }
```
-/
def resolveTopic (urlPath : GoString) : GoString :=
  let path := trimSuffix (trimPrefix urlPath [slash]) [slash]
  let segs := split path slash
  if segs.length > 0 then segs.headD [] else []

/-! ## SHA-256, HMAC and hexadecimal encoding (Go standard library)

`crypto/sha256` follows FIPS 180-4, `crypto/hmac` follows RFC 2104 and
`encoding/hex` is table driven. 32-bit words are natural numbers reduced
modulo `2^32`. -/

/-- Reduction to a 32-bit word. -/
def w32 (x : Nat) : Nat := x % 4294967296

/-- Go `bits.RotateLeft32(x, -n)`: rotation of a 32-bit word to the right. -/
def rotr (x n : Nat) : Nat := w32 ((x >>> n) ||| (x <<< (32 - n)))

/-- The SHA-256 choice function `(e AND f) XOR (NOT e AND g)`. -/
def ch (x y z : Nat) : Nat := (x &&& y) ^^^ ((4294967295 - x) &&& z)

/-- The SHA-256 majority function. -/
def maj (x y z : Nat) : Nat := (x &&& y) ^^^ (x &&& z) ^^^ (y &&& z)

def bigSigma0 (x : Nat) : Nat := rotr x 2 ^^^ rotr x 13 ^^^ rotr x 22
def bigSigma1 (x : Nat) : Nat := rotr x 6 ^^^ rotr x 11 ^^^ rotr x 25
def smallSigma0 (x : Nat) : Nat := rotr x 7 ^^^ rotr x 18 ^^^ (x >>> 3)
def smallSigma1 (x : Nat) : Nat := rotr x 17 ^^^ rotr x 19 ^^^ (x >>> 10)

/-- The round constants `_K` of `crypto/sha256`. -/
def sha256K : List Nat := [
  0x428a2f98, 0x71374491, 0xb5c0fbcf, 0xe9b5dba5, 0x3956c25b, 0x59f111f1, 0x923f82a4, 0xab1c5ed5,
  0xd807aa98, 0x12835b01, 0x243185be, 0x550c7dc3, 0x72be5d74, 0x80deb1fe, 0x9bdc06a7, 0xc19bf174,
  0xe49b69c1, 0xefbe4786, 0x0fc19dc6, 0x240ca1cc, 0x2de92c6f, 0x4a7484aa, 0x5cb0a9dc, 0x76f988da,
  0x983e5152, 0xa831c66d, 0xb00327c8, 0xbf597fc7, 0xc6e00bf3, 0xd5a79147, 0x06ca6351, 0x14292967,
  0x27b70a85, 0x2e1b2138, 0x4d2c6dfc, 0x53380d13, 0x650a7354, 0x766a0abb, 0x81c2c92e, 0x92722c85,
  0xa2bfe8a1, 0xa81a664b, 0xc24b8b70, 0xc76c51a3, 0xd192e819, 0xd6990624, 0xf40e3585, 0x106aa070,
  0x19a4c116, 0x1e376c08, 0x2748774c, 0x34b0bcb5, 0x391c0cb3, 0x4ed8aa4a, 0x5b9cca4f, 0x682e6ff3,
  0x748f82ee, 0x78a5636f, 0x84c87814, 0x8cc70208, 0x90befffa, 0xa4506ceb, 0xbef9a3f7, 0xc67178f2]

/-- The eight working registers / chaining values of SHA-256. -/
structure Regs where
  a : Nat
  b : Nat
  c : Nat
  d : Nat
  e : Nat
  f : Nat
  g : Nat
  h : Nat
deriving DecidableEq

/-- The initial chaining value `init0 … init7`. -/
def sha256Init : Regs :=
  ⟨0x6a09e667, 0xbb67ae85, 0x3c6ef372, 0xa54ff53a, 0x510e527f, 0x9b05688c, 0x1f83d9ab, 0x5be0cd19⟩

/-- The first `n` big-endian 32-bit words of a byte sequence. -/
def wordsOf : Nat → List Byte → List Nat
  | 0, _ => []
  | n + 1, bs =>
    w32 (bs.getD 0 0 * 16777216 + bs.getD 1 0 * 65536 + bs.getD 2 0 * 256 + bs.getD 3 0)
      :: wordsOf n (bs.drop 4)

/-- Message schedule, most recent word first: `n` further words
`w[i] = σ1(w[i-2]) + w[i-7] + σ0(w[i-15]) + w[i-16]`. -/
def schedule : Nat → List Nat → List Nat
  | 0, rev => rev
  | n + 1, rev =>
    schedule n (w32 (smallSigma1 (rev.getD 1 0) + rev.getD 6 0 + smallSigma0 (rev.getD 14 0)
      + rev.getD 15 0) :: rev)

/-- One round of the compression function. -/
def round (r : Regs) (k w : Nat) : Regs :=
  let t1 := w32 (r.h + bigSigma1 r.e + ch r.e r.f r.g + k + w)
  let t2 := w32 (bigSigma0 r.a + maj r.a r.b r.c)
  ⟨w32 (t1 + t2), r.a, r.b, r.c, w32 (r.d + t1), r.e, r.f, r.g⟩

/-- The 64 rounds, over the round constants and the message schedule. -/
def rounds : Regs → List Nat → List Nat → Regs
  | r, k :: ks, w :: ws => rounds (round r k w) ks ws
  | r, _, _ => r

/-- The compression of one 64-byte block into the chaining value. -/
def compress (h : Regs) (block : List Byte) : Regs :=
  let w := (schedule 48 (wordsOf 16 block).reverse).reverse
  let r := rounds h sha256K w
  ⟨w32 (h.a + r.a), w32 (h.b + r.b), w32 (h.c + r.c), w32 (h.d + r.d),
   w32 (h.e + r.e), w32 (h.f + r.f), w32 (h.g + r.g), w32 (h.h + r.h)⟩

/-- Compression of `n` consecutive 64-byte blocks. -/
def blocks : Nat → Regs → List Byte → Regs
  | 0, h, _ => h
  | n + 1, h, data => blocks n (compress h (data.take 64)) (data.drop 64)

/-- The `n` low-order bytes of `x`, most significant first. -/
def bigEndian (n : Nat) (x : Nat) : List Byte :=
  (List.range n).reverse.map fun i => (x >>> (8 * i)) % 256

/-- SHA-256 padding: a `0x80` byte, zero bytes up to 56 modulo 64, and the
message length in bits as a 64-bit big-endian integer. -/
def sha256Pad (msg : List Byte) : List Byte :=
  msg ++ [128] ++ List.replicate ((119 - msg.length % 64) % 64) 0
    ++ bigEndian 8 ((8 * msg.length) % 18446744073709551616)

/-- Go `sha256.Sum256(msg)` as a 32-byte slice. -/
def sha256 (msg : List Byte) : List Byte :=
  let p := sha256Pad msg
  let r := blocks (p.length / 64) sha256Init p
  bigEndian 4 r.a ++ bigEndian 4 r.b ++ bigEndian 4 r.c ++ bigEndian 4 r.d
    ++ bigEndian 4 r.e ++ bigEndian 4 r.f ++ bigEndian 4 r.g ++ bigEndian 4 r.h

/-- The result of `h := hmac.New(sha256.New, key); h.Write(msg); h.Sum(nil)`:
a key longer than the 64-byte block is hashed first, the key is zero-padded to
the block size, and the digest is `H(opad ‖ H(ipad ‖ msg))`. -/
def hmacSHA256 (key msg : List Byte) : List Byte :=
  let key1 := if key.length > 64 then sha256 key else key
  let padded := key1 ++ List.replicate (64 - key1.length) 0
  let ipad := padded.map (· ^^^ 0x36)
  let opad := padded.map (· ^^^ 0x5c)
  sha256 (opad ++ sha256 (ipad ++ msg))

/-- The constant `hextable = "0123456789abcdef"` of `encoding/hex`. -/
def hextable : GoString := ascii "0123456789abcdef"

/-- Go `hex.EncodeToString(src)`: for each byte `v`, `hextable[v>>4]` then
`hextable[v&0x0f]`. -/
def hexEncodeToString (src : List Byte) : GoString :=
  src.flatMap fun v => [hextable.getD (v >>> 4) 0, hextable.getD (v &&& 15) 0]

/-- The signature check of `function.go`:
```
h := hmac.New(sha256.New, signingKey)
h.Write([]byte(body))
digest := hex.EncodeToString(h.Sum(nil))
return digest == signature
```
-/
def IsValidSignatureForStringBody (body : List Byte) (signature : GoString)
    (signingKey : List Byte) : Bool :=
  let digest := hexEncodeToString (hmacSHA256 signingKey body)
  digest == signature

/-! ## The HTTP handler -/

/-- A Go `error` value, represented by its `Error()` text (what `%v` prints). -/
abbrev GoError := GoString

deriving instance DecidableEq for Except

/-- The struct `DeadMsg` that `pushToDead` serializes. -/
structure DeadMsg where
  RequestPath : GoString
  Data : List Byte
deriving DecidableEq

/-- The package-level configuration read from the environment. -/
structure Config where
  apiKey : GoString
  deadTopic : GoString
deriving DecidableEq

/-- The parts of `*http.Request` the handler looks at. -/
structure Request where
  /-- The values of the `X-Alchemy-Signature` header (`r.Header[sigHeader]`). -/
  sigValues : List GoString
  /-- The outcome of `io.ReadAll(r.Body)`. -/
  body : Except GoError (List Byte)
  /-- The field `r.URL.Path`. -/
  urlPath : GoString
deriving DecidableEq

/-- Go `Header.Get`: the first value of the header, `""` when there is none. -/
def headerGet (values : List GoString) : GoString := values.headD []

/-- Which statement issued a publish call: the one in `Publish` or the one in
`pushToDead`. -/
inductive Site
  | primary
  | dead
deriving DecidableEq

/-- The observable effects of one handler run. -/
inductive Event
  | readBody
  | publish (site : Site) (topic : GoString) (data : List Byte)
      (result : Except GoError GoString)
deriving DecidableEq

/-- The message bus `client.Topic(t).Publish(ctx, msg).Get(ctx)`: given what
happened so far, the topic and the payload, a message id or an error. -/
abbrev Bus := List Event → GoString → List Byte → Except GoError GoString

/-- An `http.ResponseWriter`: the status code once the header is written, and
the body written so far. -/
structure ResponseWriter where
  status : Option Nat
  body : GoString
deriving DecidableEq

/-- Go `w.WriteHeader(code)`; a second call has no effect. -/
def ResponseWriter.WriteHeader (w : ResponseWriter) (code : Nat) : ResponseWriter :=
  match w.status with
  | none => { w with status := some code }
  | some _ => w

/-- Go `w.Write(data)`: writes the header with 200 if it is not yet written. -/
def ResponseWriter.Write (w : ResponseWriter) (data : GoString) : ResponseWriter :=
  let w1 := w.WriteHeader 200
  { w1 with body := w1.body ++ data }

/-- The status the client receives (200 when the handler never wrote one). -/
def ResponseWriter.statusCode (w : ResponseWriter) : Nat := w.status.getD 200

/-- The handler state: response writer and effect trace. -/
structure State where
  w : ResponseWriter
  trace : List Event
deriving DecidableEq

/-- The state at the start of a request. -/
def State.init : State := ⟨⟨none, []⟩, []⟩

/-- What the handler runs against. -/
structure Env where
  cfg : Config
  bus : Bus
  /-- Go `json.Marshal` on a `DeadMsg`. -/
  marshal : DeadMsg → List Byte

/-- One escaped byte of Go `html.EscapeString`. -/
def escapeByte (b : Byte) : GoString :=
  if b = 38 then ascii "&amp;"
  else if b = 39 then ascii "&#39;"
  else if b = 60 then ascii "&lt;"
  else if b = 62 then ascii "&gt;"
  else if b = 34 then ascii "&#34;"
  else [b]

/-- Go `html.EscapeString`. -/
def htmlEscapeString (s : GoString) : GoString := s.flatMap escapeByte

/-- A call `client.Topic(topic).Publish(ctx, &pubsub.Message{Data: data}).Get(ctx)`
issued from `site`, recorded in the trace. -/
def publishCall (env : Env) (site : Site) (topic : GoString) (data : List Byte)
    (st : State) : Except GoError GoString × State :=
  let res := env.bus st.trace topic data
  (res, { st with trace := st.trace ++ [Event.publish site topic data res] })

/-- The function `pushToDead(ctx, data, path)`. -/
def pushToDead (env : Env) (data : List Byte) (path : GoString) (st : State) :
    Except GoError GoString × State :=
  let msg := env.marshal { RequestPath := path, Data := data }
  match publishCall env Site.dead env.cfg.deadTopic msg st with
  | (Except.error err, st1) => (Except.error err, st1)
  | (Except.ok id, st1) => (Except.ok id, st1)

/-- The statements `w.WriteHeader(code); fmt.Fprintf(w, text)`. -/
def State.fail (st : State) (code : Nat) (text : GoString) : State :=
  { st with w := (st.w.WriteHeader code).Write text }

/-- The statement
`fmt.Fprint(w, html.EscapeString("published message with id: "+id+"\n"))`. -/
def State.published (st : State) (id : GoString) : State :=
  let text := htmlEscapeString (ascii "published message with id: " ++ id ++ ascii "\n")
  { st with w := st.w.Write text }

/-- The branch shared by lines 95–102 and 111–118: push to the dead topic and
answer 500 with the error, or 200 with the id. -/
def deadBranch (env : Env) (body : List Byte) (urlPath : GoString) (st : State) : State :=
  match pushToDead env body urlPath st with
  | (Except.error err, st1) =>
    st1.fail 500 (ascii "failed to publish message: " ++ err ++ ascii "\n")
  | (Except.ok id, st1) => st1.published id

/-- The handler `Publish(w, r)`. Logging is not modelled. -/
def Publish (env : Env) (r : Request) (st : State) : State :=
  let sig := headerGet r.sigValues
  if sig = [] then
    st.fail 401 (ascii "unauthorized\n")
  else
    let st := { st with trace := st.trace ++ [Event.readBody] }
    match r.body with
    | Except.error err => st.fail 400 (ascii "failed to read body: " ++ err ++ ascii "\n")
    | Except.ok body =>
      if !IsValidSignatureForStringBody body sig env.cfg.apiKey then
        st.fail 401 (ascii "unauthorized\n")
      else
        let topic := resolveTopic r.urlPath
        if topic = [] then
          deadBranch env body r.urlPath st
        else
          match publishCall env Site.primary topic body st with
          | (Except.error err, st1) =>
            if env.cfg.deadTopic ≠ [] then
              deadBranch env body r.urlPath st1
            else
              st1.fail 500 (ascii "failed to publish message: " ++ err ++ ascii "\n")
          | (Except.ok id, st1) => st1.published id

/-- The publish calls of a trace, in order: site, topic and payload. -/
def publishCalls : List Event → List (Site × GoString × List Byte)
  | [] => []
  | Event.readBody :: rest => publishCalls rest
  | Event.publish site topic data _ :: rest => (site, topic, data) :: publishCalls rest

/-! ## Specification-side notions for topic resolution -/

/-- Spec wording: the path with at most one leading `'/'` removed. -/
def stripOneLeadingSlash : GoString → GoString
  | [] => []
  | c :: rest => if c = slash then rest else c :: rest

/-- Spec wording: `t` is the longest prefix of `q` that contains no `'/'`. -/
def IsLongestSlashFreePrefix (t q : GoString) : Prop :=
  t <+: q ∧ slash ∉ t ∧ ∀ u : GoString, u <+: q → slash ∉ u → u.length ≤ t.length

/-- Spec wording: the path consists only of `'/'` characters. -/
def OnlySlashes (p : GoString) : Prop := ∀ b ∈ p, b = slash

/-! ## Specification-side notions for the signature and the trace -/

/-- Spec wording: the lowercase hexadecimal digit of a value below 16
(`'0'`–`'9'`, then `'a'`–`'f'`). -/
def lowerHexDigit (d : Nat) : Byte := if d < 10 then 48 + d else 97 + (d - 10)

/-- Spec wording: the lowercase hexadecimal encoding of a byte sequence, two
digits per byte, high nibble first. -/
def lowerHex (bs : List Byte) : GoString :=
  bs.flatMap fun b => [lowerHexDigit (b / 16), lowerHexDigit (b % 16)]

/-- Spec wording (HTML-escaping): the replacement table, as bytes. The five
characters `&`, `'`, `<`, `>` and `"` become the entities `&amp;`, `&#39;`,
`&lt;`, `&gt;` and `&#34;`. -/
def htmlEntities : List (Byte × GoString) :=
  [(38, [38, 97, 109, 112, 59]),
   (39, [38, 35, 51, 57, 59]),
   (60, [38, 108, 116, 59]),
   (62, [38, 103, 116, 59]),
   (34, [38, 35, 51, 52, 59])]

/-- Spec wording (HTML-escaping): every byte that has an entity in the table
is replaced by it, every other byte is kept. -/
def specHtmlEscape : GoString → GoString
  | [] => []
  | b :: rest => (htmlEntities.lookup b).getD [b] ++ specHtmlEscape rest

/-- Whether the trace holds a publish call issued by `pushToDead`. -/
def deadAttempted (tr : List Event) : Bool :=
  tr.any fun ev =>
    match ev with
    | Event.publish Site.dead _ _ _ => true
    | _ => false

/-- Whether the trace holds a publish call issued by `pushToDead` that failed. -/
def deadFailed (tr : List Event) : Bool :=
  tr.any fun ev =>
    match ev with
    | Event.publish Site.dead _ _ (Except.error _) => true
    | _ => false

/-- Whether the trace holds a publish call issued by `pushToDead` that
succeeded. -/
def deadSucceeded (tr : List Event) : Bool :=
  tr.any fun ev =>
    match ev with
    | Event.publish Site.dead _ _ (Except.ok _) => true
    | _ => false

/-- The response written on success with message id `id`. -/
def okResponse (id : GoString) : ResponseWriter :=
  ⟨some 200, htmlEscapeString (ascii "published message with id: " ++ id ++ ascii "\n")⟩

/-- The response written when the dead-letter publish fails with `e`. -/
def failResponse (e : GoError) : ResponseWriter :=
  ⟨some 500, ascii "failed to publish message: " ++ e ++ ascii "\n"⟩

/-- The response written after a dead-letter publish with the given result. -/
def deadResponse : Except GoError GoString → ResponseWriter
  | Except.error e => failResponse e
  | Except.ok id => okResponse id

/-! ## Sample data -/

/-- A bus on which every publish succeeds with the id `"m1"`. -/
def okBus : Bus := fun _ _ _ => Except.ok (ascii "m1")

/-- A bus on which every publish fails with the given error. -/
def failBus (e : GoError) : Bus := fun _ _ _ => Except.error e

/-- A bus on which only publishing to the given topic succeeds, with id `"d1"`. -/
def onlyTopicBus (t : GoString) : Bus := fun _ topic _ =>
  if topic = t then Except.ok (ascii "d1") else Except.error (ascii "topic not found")

/-- A stand-in serializer for the examples: path, a zero byte, data. -/
def sampleMarshal (m : DeadMsg) : List Byte := m.RequestPath ++ [0] ++ m.Data

/-- A sample configuration. -/
def sampleCfg : Config := ⟨ascii "key", ascii "publisher-dead"⟩

/-- A sample body. -/
def sampleBody : List Byte := ascii "The quick brown fox jumps over the lazy dog"

/-- The signature of `sampleBody` under the key `"key"`. -/
def sampleSig : GoString :=
  ascii "f7bc83f430538424b13298e6aa6fb143ef4d59a14946175997479dbc2d1a3cd8"

/-- A sample environment in which every publish succeeds. -/
def sampleEnv : Env := ⟨sampleCfg, okBus, sampleMarshal⟩

/-- A correctly signed request for the topic `"orders"`. -/
def sampleReq : Request := ⟨[sampleSig], Except.ok sampleBody, ascii "/orders"⟩

/-- A correctly signed request for the path `"/"`. -/
def rootReq : Request := ⟨[sampleSig], Except.ok sampleBody, ascii "/"⟩

/-- A request whose signature does not match its body. -/
def badSigReq : Request := ⟨[ascii "deadbeef"], Except.ok sampleBody, ascii "/orders"⟩

/-- A sample environment in which only the dead topic accepts messages. -/
def deadOnlyEnv : Env := ⟨sampleCfg, onlyTopicBus (ascii "publisher-dead"), sampleMarshal⟩

/-- A sample environment in which every publish fails with the given error. -/
def failEnv (e : GoError) : Env := ⟨sampleCfg, failBus e, sampleMarshal⟩

/-- A message id made of the five characters that HTML-escaping rewrites,
around ordinary ones: `<m&1>'"`. -/
def trickyId : GoString := ascii "<m&1>'" ++ [34]

/-- A sample environment in which every publish succeeds with `trickyId`. -/
def trickyEnv : Env := ⟨sampleCfg, fun _ _ _ => Except.ok trickyId, sampleMarshal⟩

/-! ## Sanity checks of the embedding -/

example : resolveTopic (ascii "/foo/bar/") = ascii "foo" := by decide
example : split (ascii "a/b//c/") slash = [ascii "a", ascii "b", [], ascii "c", []] := by decide

set_option maxRecDepth 100000 in
/-- FIPS 180-4 test vector for the one-block message `"abc"`. -/
theorem sha256_abc : hexEncodeToString (sha256 (ascii "abc"))
    = ascii "ba7816bf8f01cfea414140de5dae2223b00361a396177a9cb410ff61f20015ad" := by
  decide

set_option maxRecDepth 100000 in
/-- HMAC-SHA256 of the empty message under the empty key. -/
theorem hmac_empty : hexEncodeToString (hmacSHA256 [] [])
    = ascii "b613679a0814d9ec772f95d778c35fc5ff1697c493715653c6c712144292c5ad" := by
  decide

set_option maxRecDepth 100000 in
/-- RFC 4231, test case 6: a key longer than the block size is hashed first. -/
theorem hmac_long_key :
    hexEncodeToString (hmacSHA256 (List.replicate 131 170)
        (ascii "Test Using Larger Than Block-Size Key - Hash Key First"))
      = ascii "60e431591ee0b67f0d8a26aacbf5b77f8e0bc6213728c5140546040f0ee37f54" := by
  decide

set_option maxRecDepth 100000 in
/-- The upper-case spelling of a valid signature is rejected. -/
theorem upperSig_invalid :
    IsValidSignatureForStringBody sampleBody
      (ascii "F7BC83F430538424B13298E6AA6FB143EF4D59A14946175997479DBC2D1A3CD8")
      sampleCfg.apiKey = false := by
  decide

set_option maxRecDepth 100000 in
theorem badSig_invalid :
    IsValidSignatureForStringBody sampleBody (ascii "deadbeef") sampleCfg.apiKey = false := by
  decide

set_option maxRecDepth 100000 in
theorem sampleSig_valid :
    IsValidSignatureForStringBody sampleBody sampleSig sampleCfg.apiKey = true := by
  decide

/-! ## Lemmas on the string functions -/

theorem indexByte_none {c : Byte} {s : GoString} (h : indexByte c s = none) :
    s.takeWhile (fun b => b != c) = s := by
  induction s with
  | nil => rfl
  | cons x rest ih =>
    by_cases hx : x = c
    · simp [indexByte, hx] at h
    · simp only [indexByte, hx, if_false, Option.map_eq_none'] at h
      simp [List.takeWhile_cons, hx, ih h]

theorem indexByte_some {c : Byte} {s : GoString} {m : Nat} (h : indexByte c s = some m) :
    s.take m = s.takeWhile (fun b => b != c) := by
  induction s generalizing m with
  | nil => simp [indexByte] at h
  | cons x rest ih =>
    by_cases hx : x = c
    · simp only [indexByte, hx, if_true, Option.some.injEq] at h
      subst h
      simp [List.takeWhile_cons, hx]
    · simp only [indexByte, hx, if_false, Option.map_eq_some'] at h
      obtain ⟨k, hk, rfl⟩ := h
      simp [List.takeWhile_cons, hx, ih hk]

theorem indexByte_of_count_zero {c : Byte} {s : GoString} (h : s.count c = 0) :
    indexByte c s = none := by
  induction s with
  | nil => rfl
  | cons x rest ih =>
    have hx : x ≠ c := by
      intro hxc
      simp [hxc] at h
    have hc : rest.count c = 0 := by
      simpa [List.count_cons, hx] using h
    simp [indexByte, hx, ih hc]

theorem splitLoop_head (c : Byte) (fuel : Nat) (s : GoString) (h : fuel = 0 → s.count c = 0) :
    (splitLoop c fuel s).headD [] = s.takeWhile (fun b => b != c) := by
  cases fuel with
  | zero =>
    simp [splitLoop, indexByte_none (indexByte_of_count_zero (h rfl))]
  | succ n =>
    cases hi : indexByte c s with
    | none => simp [splitLoop, hi, indexByte_none hi]
    | some m => simp [splitLoop, hi, indexByte_some hi]

theorem splitLoop_length_pos (c : Byte) (fuel : Nat) (s : GoString) :
    0 < (splitLoop c fuel s).length := by
  cases fuel with
  | zero => simp [splitLoop]
  | succ n =>
    cases hi : indexByte c s with
    | none => simp [splitLoop, hi]
    | some m => simp [splitLoop, hi]

theorem split_head (s : GoString) (c : Byte) :
    (split s c).headD [] = s.takeWhile (fun b => b != c) :=
  splitLoop_head c _ s (fun h => h)

theorem split_length_pos (s : GoString) (c : Byte) : 0 < (split s c).length :=
  splitLoop_length_pos c _ s

theorem trimPrefix_slash (p : GoString) :
    trimPrefix p [slash] = stripOneLeadingSlash p := by
  cases p with
  | nil => rfl
  | cons x rest =>
    by_cases hx : x = slash
    · simp [trimPrefix, hasPrefix, stripOneLeadingSlash, hx]
    · simp [trimPrefix, hasPrefix, stripOneLeadingSlash, hx]

theorem takeWhile_append_sep (c : Byte) (q : GoString) :
    (q ++ [c]).takeWhile (fun b => b != c) = q.takeWhile (fun b => b != c) := by
  induction q with
  | nil => simp
  | cons x rest ih =>
    by_cases hx : x = c
    · simp [List.takeWhile_cons, hx]
    · simp [List.takeWhile_cons, hx, ih]

theorem takeWhile_trimSuffix (c : Byte) (q : GoString) :
    (trimSuffix q [c]).takeWhile (fun b => b != c) = q.takeWhile (fun b => b != c) := by
  unfold trimSuffix
  split
  · rename_i h
    simp only [hasSuffix, List.length_singleton, Bool.and_eq_true, decide_eq_true_eq,
      beq_iff_eq] at h
    have hq : q = q.take (q.length - 1) ++ [c] := by
      conv_lhs => rw [← List.take_append_drop (q.length - 1) q, h.2]
    conv_rhs => rw [hq]
    simp only [List.length_singleton]
    exact (takeWhile_append_sep c _).symm
  · rfl

/-- The topic is what precedes the first `'/'` once one leading `'/'` is removed. -/
theorem resolveTopic_eq (p : GoString) :
    resolveTopic p = (stripOneLeadingSlash p).takeWhile (fun b => b != slash) := by
  unfold resolveTopic
  simp only [split_length_pos, if_true, split_head, takeWhile_trimSuffix, trimPrefix_slash]

theorem length_le_takeWhile (c : Byte) (q u : GoString) (hu : u <+: q) (hc : c ∉ u) :
    u.length ≤ (q.takeWhile (fun b => b != c)).length := by
  induction q generalizing u with
  | nil =>
    have : u = [] := List.prefix_nil.mp hu
    simp [this]
  | cons x rest ih =>
    cases u with
    | nil => simp
    | cons y u1 =>
      rw [List.cons_prefix_cons] at hu
      obtain ⟨rfl, hu1⟩ := hu
      have hy : y ≠ c := fun h => hc (by simp [h])
      have hc1 : c ∉ u1 := fun h => hc (List.mem_cons_of_mem _ h)
      simp only [List.takeWhile_cons, bne_iff_ne, ne_eq, hy, not_false_eq_true, decide_True,
        if_true, List.length_cons]
      exact Nat.succ_le_succ (ih u1 hu1 hc1)

theorem not_mem_takeWhile (c : Byte) (q : GoString) :
    c ∉ q.takeWhile (fun b => b != c) := by
  intro h
  have := List.mem_takeWhile_imp h
  simp at this

theorem takeWhile_isLongest (q : GoString) :
    IsLongestSlashFreePrefix (q.takeWhile (fun b => b != slash)) q :=
  ⟨List.takeWhile_prefix _, not_mem_takeWhile slash q,
    fun u hu hc => length_le_takeWhile slash q u hu hc⟩

theorem resolveTopic_nil_iff (p : GoString) :
    resolveTopic p = [] ↔ p = [] ∨ p = [slash] ∨ hasPrefix p [slash, slash] = true := by
  rw [resolveTopic_eq]
  cases p with
  | nil => simp [stripOneLeadingSlash]
  | cons x rest =>
    by_cases hx : x = slash
    · subst hx
      cases rest with
      | nil => simp [stripOneLeadingSlash]
      | cons y r =>
        by_cases hy : y = slash
        · simp [stripOneLeadingSlash, hasPrefix, hy]
        · simp [stripOneLeadingSlash, hasPrefix, hy]
    · simp [stripOneLeadingSlash, hasPrefix, hx]

/-! ## Topic resolution: the claims -/

/-- C8: the topic resolution of the handler (strip one leading `'/'`, strip one
trailing `'/'`, split on `'/'`, take the first segment) maps `"/foo/bar/"` to
`"foo"`, `"/foo"` to `"foo"`, `"/"` to the empty string and the empty path to
the empty string. -/
theorem resolveTopic_examples :
    resolveTopic (ascii "/foo/bar/") = ascii "foo"
      ∧ resolveTopic (ascii "/foo") = ascii "foo"
      ∧ resolveTopic (ascii "/") = []
      ∧ resolveTopic [] = [] := by
  decide

/-- C9, as stated, fails: the path `"//foo"` is neither empty nor made of
`'/'` characters only, yet it resolves to the empty topic. -/
theorem resolveTopic_double_slash :
    resolveTopic (ascii "//foo") = []
      ∧ ascii "//foo" ≠ []
      ∧ ¬ OnlySlashes (ascii "//foo") := by
  refine ⟨by decide, by decide, ?_⟩
  intro h
  have := h 102 (by decide)
  exact absurd this (by decide)

/-- C9, amended: the resolved topic is the empty string if and only if the
path is empty, is exactly `"/"`, or begins with `"//"`; in particular every
path that is empty or consists only of `'/'` characters resolves to the empty
string; every other path resolves to a non-empty topic, the bytes between the
single optional leading `'/'` and the next `'/'` (or the end of the path). -/
theorem resolveTopic_empty_iff (p : GoString) :
    (resolveTopic p = [] ↔ p = [] ∨ p = [slash] ∨ hasPrefix p [slash, slash] = true)
      ∧ (p = [] ∨ OnlySlashes p → resolveTopic p = [])
      ∧ (¬ (p = [] ∨ p = [slash] ∨ hasPrefix p [slash, slash] = true) →
          resolveTopic p ≠ []
            ∧ resolveTopic p = (stripOneLeadingSlash p).takeWhile (fun b => b != slash)) := by
  refine ⟨resolveTopic_nil_iff p, ?_, ?_⟩
  · intro h
    rw [resolveTopic_nil_iff]
    rcases h with h | h
    · exact Or.inl h
    · cases p with
      | nil => exact Or.inl rfl
      | cons x rest =>
        have hx : x = slash := h x (by simp)
        cases rest with
        | nil => exact Or.inr (Or.inl (by rw [hx]))
        | cons y r =>
          have hy : y = slash := h y (by simp)
          exact Or.inr (Or.inr (by simp [hasPrefix, hx, hy]))
  · intro h
    exact ⟨fun h0 => h ((resolveTopic_nil_iff p).mp h0), resolveTopic_eq p⟩

/-- C10: for every request path `p`, the resolved topic is the longest prefix
containing no `'/'` of `p` with at most one leading `'/'` removed; the split
always yields at least one segment, the trailing-slash strip never changes the
result, and the resolved topic never contains a `'/'`. -/
theorem resolveTopic_refines (p : GoString) :
    IsLongestSlashFreePrefix (resolveTopic p) (stripOneLeadingSlash p)
      ∧ 0 < (split (trimSuffix (trimPrefix p [slash]) [slash]) slash).length
      ∧ resolveTopic p = (split (trimPrefix p [slash]) slash).headD []
      ∧ slash ∉ resolveTopic p := by
  refine ⟨?_, split_length_pos _ _, ?_, ?_⟩
  · rw [resolveTopic_eq]
    exact takeWhile_isLongest _
  · rw [resolveTopic_eq, split_head, trimPrefix_slash]
  · rw [resolveTopic_eq]
    exact not_mem_takeWhile slash _

/-! ## Lemmas on the signature check -/

theorem hextable_eq_lowerHexDigit : ∀ d, d < 16 → hextable.getD d 0 = lowerHexDigit d := by
  decide

theorem hexEncodeToString_eq_lowerHex (bs : List Byte) (h : ∀ b ∈ bs, b < 256) :
    hexEncodeToString bs = lowerHex bs := by
  induction bs with
  | nil => rfl
  | cons v rest ih =>
    have hv : v < 256 := h v (by simp)
    have hrest : ∀ b ∈ rest, b < 256 := fun b hb => h b (List.mem_cons_of_mem _ hb)
    have h1 : v >>> 4 = v / 16 := by simp [Nat.shiftRight_eq_div_pow]
    have h2 : v &&& 15 = v % 16 := Nat.and_pow_two_sub_one_eq_mod v 4
    have h3 : v / 16 < 16 := Nat.div_lt_of_lt_mul hv
    have h4 : v % 16 < 16 := Nat.mod_lt _ (by decide)
    have ih1 := ih hrest
    unfold hexEncodeToString lowerHex at *
    simp only [List.flatMap_cons, ih1, h1, h2]
    rw [hextable_eq_lowerHexDigit (v / 16) h3, hextable_eq_lowerHexDigit (v % 16) h4]

theorem bigEndian_lt (n x : Nat) : ∀ b ∈ bigEndian n x, b < 256 := by
  intro b hb
  simp only [bigEndian, List.mem_map] at hb
  obtain ⟨i, _, rfl⟩ := hb
  exact Nat.mod_lt _ (by decide)

theorem sha256_lt (msg : List Byte) : ∀ b ∈ sha256 msg, b < 256 := by
  intro b hb
  simp only [sha256, List.mem_append] at hb
  rcases hb with ((((((hb | hb) | hb) | hb) | hb) | hb) | hb) | hb <;>
    exact bigEndian_lt _ _ b hb

theorem sha256_length (msg : List Byte) : (sha256 msg).length = 32 := by
  simp [sha256, bigEndian]

theorem hmacSHA256_lt (key msg : List Byte) : ∀ b ∈ hmacSHA256 key msg, b < 256 :=
  sha256_lt _

theorem hmacSHA256_length (key msg : List Byte) : (hmacSHA256 key msg).length = 32 :=
  sha256_length _

theorem lowerHex_length (bs : List Byte) : (lowerHex bs).length = 2 * bs.length := by
  induction bs with
  | nil => rfl
  | cons v rest ih =>
    simp only [lowerHex, List.flatMap_cons, List.length_append, List.length_cons,
      List.length_nil] at *
    omega

/-- The digest string compared with the signature is the lowercase hexadecimal
encoding of the HMAC. -/
theorem digest_eq_lowerHex (key body : List Byte) :
    hexEncodeToString (hmacSHA256 key body) = lowerHex (hmacSHA256 key body) :=
  hexEncodeToString_eq_lowerHex _ (hmacSHA256_lt key body)

/-! ## The final state of the handler on each of its paths -/

theorem publish_no_sig (env : Env) (r : Request) (h : headerGet r.sigValues = []) :
    Publish env r State.init = ⟨⟨some 401, ascii "unauthorized\n"⟩, []⟩ := by
  simp [Publish, h, State.fail, State.init, ResponseWriter.WriteHeader, ResponseWriter.Write]

theorem publish_body_error (env : Env) (r : Request) (err : GoError)
    (hsig : headerGet r.sigValues ≠ []) (hb : r.body = Except.error err) :
    Publish env r State.init
      = ⟨⟨some 400, ascii "failed to read body: " ++ err ++ ascii "\n"⟩, [Event.readBody]⟩ := by
  simp [Publish, hsig, hb, State.fail, State.init, ResponseWriter.WriteHeader,
    ResponseWriter.Write]

theorem publish_bad_sig (env : Env) (r : Request) (body : List Byte)
    (hsig : headerGet r.sigValues ≠ []) (hb : r.body = Except.ok body)
    (hv : IsValidSignatureForStringBody body (headerGet r.sigValues) env.cfg.apiKey = false) :
    Publish env r State.init = ⟨⟨some 401, ascii "unauthorized\n"⟩, [Event.readBody]⟩ := by
  simp [Publish, hsig, hb, hv, State.fail, State.init, ResponseWriter.WriteHeader,
    ResponseWriter.Write]

theorem deadBranch_state (env : Env) (body : List Byte) (urlPath : GoString)
    (tr : List Event) :
    deadBranch env body urlPath ⟨⟨none, []⟩, tr⟩
      = ⟨deadResponse (env.bus tr env.cfg.deadTopic (env.marshal ⟨urlPath, body⟩)),
          tr ++ [Event.publish Site.dead env.cfg.deadTopic (env.marshal ⟨urlPath, body⟩)
            (env.bus tr env.cfg.deadTopic (env.marshal ⟨urlPath, body⟩))]⟩ := by
  cases hres : env.bus tr env.cfg.deadTopic (env.marshal ⟨urlPath, body⟩) <;>
    simp [deadBranch, pushToDead, publishCall, hres, deadResponse, failResponse, okResponse,
      State.fail, State.published, ResponseWriter.WriteHeader, ResponseWriter.Write]

theorem publish_no_topic_state (env : Env) (r : Request) (body : List Byte)
    (hsig : headerGet r.sigValues ≠ []) (hb : r.body = Except.ok body)
    (hv : IsValidSignatureForStringBody body (headerGet r.sigValues) env.cfg.apiKey = true)
    (ht : resolveTopic r.urlPath = []) :
    Publish env r State.init
      = ⟨deadResponse (env.bus [Event.readBody] env.cfg.deadTopic
            (env.marshal ⟨r.urlPath, body⟩)),
          [Event.readBody, Event.publish Site.dead env.cfg.deadTopic
            (env.marshal ⟨r.urlPath, body⟩)
            (env.bus [Event.readBody] env.cfg.deadTopic (env.marshal ⟨r.urlPath, body⟩))]⟩ := by
  simp [Publish, hsig, hb, hv, ht, State.init, deadBranch_state]

theorem publish_primary_ok_state (env : Env) (r : Request) (body : List Byte) (id : GoString)
    (hsig : headerGet r.sigValues ≠ []) (hb : r.body = Except.ok body)
    (hv : IsValidSignatureForStringBody body (headerGet r.sigValues) env.cfg.apiKey = true)
    (ht : resolveTopic r.urlPath ≠ [])
    (hp : env.bus [Event.readBody] (resolveTopic r.urlPath) body = Except.ok id) :
    Publish env r State.init
      = ⟨okResponse id, [Event.readBody,
          Event.publish Site.primary (resolveTopic r.urlPath) body (Except.ok id)]⟩ := by
  simp [Publish, hsig, hb, hv, ht, hp, State.init, publishCall, okResponse, State.published,
    ResponseWriter.WriteHeader, ResponseWriter.Write]

theorem publish_primary_err_state (env : Env) (r : Request) (body : List Byte) (e : GoError)
    (hsig : headerGet r.sigValues ≠ []) (hb : r.body = Except.ok body)
    (hv : IsValidSignatureForStringBody body (headerGet r.sigValues) env.cfg.apiKey = true)
    (ht : resolveTopic r.urlPath ≠ []) (hd : env.cfg.deadTopic ≠ [])
    (hp : env.bus [Event.readBody] (resolveTopic r.urlPath) body = Except.error e) :
    Publish env r State.init
      = ⟨deadResponse (env.bus [Event.readBody,
            Event.publish Site.primary (resolveTopic r.urlPath) body (Except.error e)]
            env.cfg.deadTopic (env.marshal ⟨r.urlPath, body⟩)),
          [Event.readBody,
           Event.publish Site.primary (resolveTopic r.urlPath) body (Except.error e),
           Event.publish Site.dead env.cfg.deadTopic (env.marshal ⟨r.urlPath, body⟩)
            (env.bus [Event.readBody,
              Event.publish Site.primary (resolveTopic r.urlPath) body (Except.error e)]
              env.cfg.deadTopic (env.marshal ⟨r.urlPath, body⟩))]⟩ := by
  simp [Publish, hsig, hb, hv, ht, hp, hd, State.init, publishCall, deadBranch_state]

theorem publish_primary_err_nodead_state (env : Env) (r : Request) (body : List Byte)
    (e : GoError)
    (hsig : headerGet r.sigValues ≠ []) (hb : r.body = Except.ok body)
    (hv : IsValidSignatureForStringBody body (headerGet r.sigValues) env.cfg.apiKey = true)
    (ht : resolveTopic r.urlPath ≠ []) (hd : env.cfg.deadTopic = [])
    (hp : env.bus [Event.readBody] (resolveTopic r.urlPath) body = Except.error e) :
    Publish env r State.init
      = ⟨failResponse e, [Event.readBody,
          Event.publish Site.primary (resolveTopic r.urlPath) body (Except.error e)]⟩ := by
  simp [Publish, hsig, hb, hv, ht, hp, hd, State.init, publishCall, failResponse, State.fail,
    ResponseWriter.WriteHeader, ResponseWriter.Write]

/-! ## Lemmas on HTML-escaping -/

/-- The escaper on a string that holds each of the five special characters. -/
theorem htmlEscapeString_sample :
    htmlEscapeString (ascii "<a href='x'>T&J</a>" ++ [34])
      = ascii "&lt;a href=&#39;x&#39;&gt;T&amp;J&lt;/a&gt;&#34;" := by
  decide

theorem escapeByte_eq_lookup (b : Byte) :
    escapeByte b = (htmlEntities.lookup b).getD [b] := by
  have e1 : ascii "&amp;" = [38, 97, 109, 112, 59] := by decide
  have e2 : ascii "&#39;" = [38, 35, 51, 57, 59] := by decide
  have e3 : ascii "&lt;" = [38, 108, 116, 59] := by decide
  have e4 : ascii "&gt;" = [38, 103, 116, 59] := by decide
  have e5 : ascii "&#34;" = [38, 35, 51, 52, 59] := by decide
  unfold escapeByte
  rw [e1, e2, e3, e4, e5]
  by_cases h1 : b = 38
  · subst h1; rfl
  by_cases h2 : b = 39
  · subst h2; rfl
  by_cases h3 : b = 60
  · subst h3; rfl
  by_cases h4 : b = 62
  · subst h4; rfl
  by_cases h5 : b = 34
  · subst h5; rfl
  have n1 : (b == 38) = false := by simpa using h1
  have n2 : (b == 39) = false := by simpa using h2
  have n3 : (b == 60) = false := by simpa using h3
  have n4 : (b == 62) = false := by simpa using h4
  have n5 : (b == 34) = false := by simpa using h5
  simp only [h1, h2, h3, h4, h5, if_false, htmlEntities, List.lookup, n1, n2, n3, n4, n5,
    Option.getD_none]

theorem htmlEscapeString_eq_spec (s : GoString) : htmlEscapeString s = specHtmlEscape s := by
  induction s with
  | nil => rfl
  | cons b rest ih =>
    unfold htmlEscapeString at *
    simp only [List.flatMap_cons, specHtmlEscape, ih, escapeByte_eq_lookup]

theorem htmlEscapeString_append (s t : GoString) :
    htmlEscapeString (s ++ t) = htmlEscapeString s ++ htmlEscapeString t := by
  simp [htmlEscapeString, List.flatMap_append]

/-- No `<`, `>`, `"` or `'` is left in an escaped string. -/
theorem htmlEscapeString_no_raw (s : GoString) :
    ∀ b ∈ htmlEscapeString s, b ≠ 60 ∧ b ≠ 62 ∧ b ≠ 34 ∧ b ≠ 39 := by
  intro b hb
  simp only [htmlEscapeString, List.mem_flatMap] at hb
  obtain ⟨x, _, hx⟩ := hb
  rw [escapeByte_eq_lookup] at hx
  by_cases h1 : x = 38
  · subst h1
    have : b ∈ [38, 97, 109, 112, 59] := hx
    simp only [List.mem_cons, List.mem_singleton, List.not_mem_nil, or_false] at this
    rcases this with h | h | h | h | h <;> subst h <;> decide
  by_cases h2 : x = 39
  · subst h2
    have : b ∈ [38, 35, 51, 57, 59] := hx
    simp only [List.mem_cons, List.mem_singleton, List.not_mem_nil, or_false] at this
    rcases this with h | h | h | h | h <;> subst h <;> decide
  by_cases h3 : x = 60
  · subst h3
    have : b ∈ [38, 108, 116, 59] := hx
    simp only [List.mem_cons, List.mem_singleton, List.not_mem_nil, or_false] at this
    rcases this with h | h | h | h <;> subst h <;> decide
  by_cases h4 : x = 62
  · subst h4
    have : b ∈ [38, 103, 116, 59] := hx
    simp only [List.mem_cons, List.mem_singleton, List.not_mem_nil, or_false] at this
    rcases this with h | h | h | h <;> subst h <;> decide
  by_cases h5 : x = 34
  · subst h5
    have : b ∈ [38, 35, 51, 52, 59] := hx
    simp only [List.mem_cons, List.mem_singleton, List.not_mem_nil, or_false] at this
    rcases this with h | h | h | h | h <;> subst h <;> decide
  have n1 : (x == 38) = false := by simpa using h1
  have n2 : (x == 39) = false := by simpa using h2
  have n3 : (x == 60) = false := by simpa using h3
  have n4 : (x == 62) = false := by simpa using h4
  have n5 : (x == 34) = false := by simpa using h5
  simp only [htmlEntities, List.lookup, n1, n2, n3, n4, n5, Option.getD_none,
    List.mem_singleton] at hx
  subst hx
  exact ⟨h3, h4, h5, h2⟩

/-- The success line: its fixed parts hold nothing to escape, so only the id
is rewritten. -/
theorem htmlEscapeString_idLine (id : GoString) :
    htmlEscapeString (ascii "published message with id: " ++ id ++ ascii "\n")
      = ascii "published message with id: " ++ specHtmlEscape id ++ ascii "\n" := by
  have e1 : htmlEscapeString (ascii "published message with id: ")
      = ascii "published message with id: " := by decide
  have e2 : htmlEscapeString (ascii "\n") = ascii "\n" := by decide
  rw [htmlEscapeString_append, htmlEscapeString_append, e1, e2, htmlEscapeString_eq_spec id]

/-! ## The signature check: the claim -/

/-- C1: for every body (the empty one included), key and signature string,
`IsValidSignatureForStringBody` returns true if and only if the signature is
exactly the lowercase hexadecimal encoding of HMAC-SHA256(key, body); it
returns true for that encoding itself and false for every other string. -/
theorem isValidSignature_iff (body : List Byte) (signature : GoString) (key : List Byte) :
    (IsValidSignatureForStringBody body signature key = true
        ↔ signature = lowerHex (hmacSHA256 key body))
      ∧ IsValidSignatureForStringBody body (lowerHex (hmacSHA256 key body)) key = true
      ∧ (∀ s : GoString, s ≠ lowerHex (hmacSHA256 key body) →
          IsValidSignatureForStringBody body s key = false) := by
  have hiff : ∀ s : GoString, IsValidSignatureForStringBody body s key = true
      ↔ s = lowerHex (hmacSHA256 key body) := by
    intro s
    simp only [IsValidSignatureForStringBody, digest_eq_lowerHex, beq_iff_eq]
    exact eq_comm
  refine ⟨hiff signature, (hiff _).mpr rfl, ?_⟩
  intro s hs
  cases hr : IsValidSignatureForStringBody body s key with
  | false => rfl
  | true => exact absurd ((hiff s).mp hr) hs

/-! ## The handler: the claims -/

/-- C2: an unauthenticated request (signature header absent or empty, or body
read and signature not verifying against the signing key) is answered with
status 401 and no publish call at all is made, neither to a primary topic nor
to the dead-letter topic; with the header absent or empty nothing happens
besides writing the response, so the body is not read. -/
theorem publish_unauthenticated (env : Env) (r : Request)
    (h : headerGet r.sigValues = []
      ∨ ∃ body, r.body = Except.ok body
          ∧ IsValidSignatureForStringBody body (headerGet r.sigValues) env.cfg.apiKey = false) :
    (Publish env r State.init).w.statusCode = 401
      ∧ publishCalls (Publish env r State.init).trace = []
      ∧ (headerGet r.sigValues = [] → (Publish env r State.init).trace = []) := by
  by_cases hsig : headerGet r.sigValues = []
  · rw [publish_no_sig env r hsig]
    simp [ResponseWriter.statusCode, publishCalls]
  · rcases h with h | ⟨body, hb, hv⟩
    · exact absurd h hsig
    · rw [publish_bad_sig env r body hsig hb hv]
      simp [ResponseWriter.statusCode, publishCalls, hsig]

/-- A request signed with `"deadbeef"` is answered 401 without a publish call. -/
theorem publish_unauthenticated_witness :
    (headerGet badSigReq.sigValues = []
      ∨ ∃ body, badSigReq.body = Except.ok body
          ∧ IsValidSignatureForStringBody body (headerGet badSigReq.sigValues)
              sampleEnv.cfg.apiKey = false)
      ∧ (Publish sampleEnv badSigReq State.init).w.statusCode = 401
      ∧ publishCalls (Publish sampleEnv badSigReq State.init).trace = [] :=
  have hyp : headerGet badSigReq.sigValues = []
      ∨ ∃ body, badSigReq.body = Except.ok body
          ∧ IsValidSignatureForStringBody body (headerGet badSigReq.sigValues)
              sampleEnv.cfg.apiKey = false :=
    Or.inr ⟨sampleBody, rfl, badSig_invalid⟩
  ⟨hyp, (publish_unauthenticated sampleEnv badSigReq hyp).1,
    (publish_unauthenticated sampleEnv badSigReq hyp).2.1⟩

/-- C3: for an authenticated request whose resolved topic is non-empty and
whose primary publish succeeds with message id `id`, the handler makes exactly
one publish call, to the topic that is the first path segment (the longest
slash-free prefix of the path after its one optional leading `'/'`) and with
the received body as payload, never invokes the dead-letter publish, and
responds with status 200 and the HTML-escaping of
`"published message with id: " + id + "\n"`: the fixed text, then the id with
each `&`, `'`, `<`, `>`, `"` replaced by its entity, then the newline, so that
no raw `<`, `>`, `"` or `'` occurs in the body. -/
theorem publish_primary_success (env : Env) (r : Request) (body : List Byte) (id : GoString)
    (hsig : headerGet r.sigValues ≠ []) (hb : r.body = Except.ok body)
    (hv : IsValidSignatureForStringBody body (headerGet r.sigValues) env.cfg.apiKey = true)
    (ht : resolveTopic r.urlPath ≠ [])
    (hp : env.bus [Event.readBody] (resolveTopic r.urlPath) body = Except.ok id) :
    publishCalls (Publish env r State.init).trace
        = [(Site.primary, resolveTopic r.urlPath, body)]
      ∧ resolveTopic r.urlPath
          = (split (trimSuffix (trimPrefix r.urlPath [slash]) [slash]) slash).headD []
      ∧ IsLongestSlashFreePrefix (resolveTopic r.urlPath) (stripOneLeadingSlash r.urlPath)
      ∧ deadAttempted (Publish env r State.init).trace = false
      ∧ (Publish env r State.init).w.statusCode = 200
      ∧ (Publish env r State.init).w.body
          = htmlEscapeString (ascii "published message with id: " ++ id ++ ascii "\n")
      ∧ (Publish env r State.init).w.body
          = ascii "published message with id: " ++ specHtmlEscape id ++ ascii "\n"
      ∧ (∀ b ∈ (Publish env r State.init).w.body, b ≠ 60 ∧ b ≠ 62 ∧ b ≠ 34 ∧ b ≠ 39) := by
  rw [publish_primary_ok_state env r body id hsig hb hv ht hp]
  refine ⟨by simp [publishCalls], ?_, ?_, by simp [deadAttempted],
    by simp [ResponseWriter.statusCode, okResponse], by simp [okResponse], ?_, ?_⟩
  · simp [resolveTopic, split_length_pos]
  · rw [resolveTopic_eq]
    exact takeWhile_isLongest _
  · exact htmlEscapeString_idLine id
  · exact htmlEscapeString_no_raw _

/-- The sample request on a bus that answers with the id `<m&1>'"`: one
primary publish to `"orders"` with the sample body, status 200, and a body in
which the five special characters of the id are written as entities. -/
theorem publish_primary_success_witness :
    publishCalls (Publish trickyEnv sampleReq State.init).trace
        = [(Site.primary, ascii "orders", sampleBody)]
      ∧ deadAttempted (Publish trickyEnv sampleReq State.init).trace = false
      ∧ (Publish trickyEnv sampleReq State.init).w.statusCode = 200
      ∧ (Publish trickyEnv sampleReq State.init).w.body
          = ascii "published message with id: &lt;m&amp;1&gt;&#39;&#34;\n"
      ∧ (Publish trickyEnv sampleReq State.init).w.body
          ≠ ascii "published message with id: " ++ trickyId ++ ascii "\n" :=
  have h := publish_primary_success trickyEnv sampleReq sampleBody trickyId
    (by decide) rfl sampleSig_valid (by decide) rfl
  have hbody : (Publish trickyEnv sampleReq State.init).w.body
      = ascii "published message with id: &lt;m&amp;1&gt;&#39;&#34;\n" :=
    h.2.2.2.2.2.1.trans (by decide)
  ⟨h.1, h.2.2.2.1, h.2.2.2.2.1, hbody, by rw [hbody]; decide⟩

/-- C4: for an authenticated request whose primary publish fails, with a
non-empty dead topic configured, the handler invokes the dead-letter publish
exactly once, with the Dead Letter Record whose data is the received body and
whose request path is the original URL path; if that publish succeeds with id
`d`, the response is status 200 carrying `d`, and the primary error does not
appear in it. -/
theorem publish_primary_failure (env : Env) (r : Request) (body : List Byte) (e : GoError)
    (hsig : headerGet r.sigValues ≠ []) (hb : r.body = Except.ok body)
    (hv : IsValidSignatureForStringBody body (headerGet r.sigValues) env.cfg.apiKey = true)
    (ht : resolveTopic r.urlPath ≠ []) (hd : env.cfg.deadTopic ≠ [])
    (hp : env.bus [Event.readBody] (resolveTopic r.urlPath) body = Except.error e) :
    publishCalls (Publish env r State.init).trace
        = [(Site.primary, resolveTopic r.urlPath, body),
           (Site.dead, env.cfg.deadTopic,
            env.marshal { RequestPath := r.urlPath, Data := body })]
      ∧ ∀ d : GoString,
          env.bus [Event.readBody,
              Event.publish Site.primary (resolveTopic r.urlPath) body (Except.error e)]
            env.cfg.deadTopic (env.marshal { RequestPath := r.urlPath, Data := body })
              = Except.ok d →
          (Publish env r State.init).w.statusCode = 200
            ∧ (Publish env r State.init).w.body
                = htmlEscapeString (ascii "published message with id: " ++ d ++ ascii "\n") := by
  rw [publish_primary_err_state env r body e hsig hb hv ht hd hp]
  refine ⟨by simp [publishCalls], ?_⟩
  intro d hdead
  simp [hdead, deadResponse, okResponse, ResponseWriter.statusCode]

/-- The sample request on a bus that only knows the dead topic. -/
theorem publish_primary_failure_witness :
    publishCalls (Publish deadOnlyEnv sampleReq State.init).trace
        = [(Site.primary, ascii "orders", sampleBody),
           (Site.dead, ascii "publisher-dead",
            sampleMarshal { RequestPath := ascii "/orders", Data := sampleBody })]
      ∧ (Publish deadOnlyEnv sampleReq State.init).w.statusCode = 200
      ∧ (Publish deadOnlyEnv sampleReq State.init).w.body
          = htmlEscapeString (ascii "published message with id: " ++ ascii "d1" ++ ascii "\n") :=
  have h := publish_primary_failure deadOnlyEnv sampleReq sampleBody (ascii "topic not found")
    (by decide) rfl sampleSig_valid (by decide) (by decide) (by decide)
  ⟨h.1, h.2 (ascii "d1") (by decide)⟩

/-- C5: for an authenticated request whose resolved topic is the empty string,
the handler never attempts a primary publish; it invokes the dead-letter
publish exactly once with the original body and the original request path, and
if that publish succeeds with id `d` it responds with status 200 and a body
carrying `d`. -/
theorem publish_no_topic (env : Env) (r : Request) (body : List Byte)
    (hsig : headerGet r.sigValues ≠ []) (hb : r.body = Except.ok body)
    (hv : IsValidSignatureForStringBody body (headerGet r.sigValues) env.cfg.apiKey = true)
    (ht : resolveTopic r.urlPath = []) :
    publishCalls (Publish env r State.init).trace
        = [(Site.dead, env.cfg.deadTopic,
            env.marshal { RequestPath := r.urlPath, Data := body })]
      ∧ ∀ d : GoString,
          env.bus [Event.readBody] env.cfg.deadTopic
            (env.marshal { RequestPath := r.urlPath, Data := body }) = Except.ok d →
          (Publish env r State.init).w.statusCode = 200
            ∧ (Publish env r State.init).w.body
                = htmlEscapeString (ascii "published message with id: " ++ d ++ ascii "\n") := by
  rw [publish_no_topic_state env r body hsig hb hv ht]
  refine ⟨by simp [publishCalls], ?_⟩
  intro d hdead
  simp [hdead, deadResponse, okResponse, ResponseWriter.statusCode]

/-- The path `"/"` on a bus that only knows the dead topic. -/
theorem publish_no_topic_witness :
    publishCalls (Publish deadOnlyEnv rootReq State.init).trace
        = [(Site.dead, ascii "publisher-dead",
            sampleMarshal { RequestPath := ascii "/", Data := sampleBody })]
      ∧ (Publish deadOnlyEnv rootReq State.init).w.statusCode = 200
      ∧ (Publish deadOnlyEnv rootReq State.init).w.body
          = htmlEscapeString (ascii "published message with id: " ++ ascii "d1" ++ ascii "\n") :=
  have h := publish_no_topic deadOnlyEnv rootReq sampleBody
    (by decide) rfl sampleSig_valid (by decide)
  ⟨h.1, h.2 (ascii "d1") (by decide)⟩

/-- C6: with a non-empty dead topic configured, the handler responds with
status 500 if and only if a dead-letter publish was attempted and failed; an
authenticated request with a readable body for which the dead-letter publish
is not attempted or succeeds gets status 200. -/
theorem status_500_iff (env : Env) (r : Request) (hd : env.cfg.deadTopic ≠ []) :
    ((Publish env r State.init).w.statusCode = 500
        ↔ deadFailed (Publish env r State.init).trace = true)
      ∧ ∀ body : List Byte, headerGet r.sigValues ≠ [] → r.body = Except.ok body →
          IsValidSignatureForStringBody body (headerGet r.sigValues) env.cfg.apiKey = true →
          (deadAttempted (Publish env r State.init).trace = false
            ∨ deadSucceeded (Publish env r State.init).trace = true) →
          (Publish env r State.init).w.statusCode = 200 := by
  by_cases hsig : headerGet r.sigValues = []
  · rw [publish_no_sig env r hsig]
    simp [ResponseWriter.statusCode, deadFailed, hsig]
  · cases hb : r.body with
    | error err =>
      rw [publish_body_error env r err hsig hb]
      simp [ResponseWriter.statusCode, deadFailed]
    | ok body =>
      cases hv : IsValidSignatureForStringBody body (headerGet r.sigValues) env.cfg.apiKey with
      | false =>
        rw [publish_bad_sig env r body hsig hb hv]
        refine ⟨by simp [ResponseWriter.statusCode, deadFailed], ?_⟩
        intro body1 _ hb1 hv1
        cases hb1
        rw [hv] at hv1
        exact absurd hv1 (by decide)
      | true =>
        by_cases ht : resolveTopic r.urlPath = []
        · rw [publish_no_topic_state env r body hsig hb hv ht]
          cases env.bus [Event.readBody] env.cfg.deadTopic (env.marshal ⟨r.urlPath, body⟩) <;>
            simp [ResponseWriter.statusCode, deadFailed, deadAttempted, deadSucceeded,
              deadResponse, failResponse, okResponse]
        · cases hp : env.bus [Event.readBody] (resolveTopic r.urlPath) body with
          | error e =>
            rw [publish_primary_err_state env r body e hsig hb hv ht hd hp]
            cases env.bus [Event.readBody,
                Event.publish Site.primary (resolveTopic r.urlPath) body (Except.error e)]
                env.cfg.deadTopic (env.marshal ⟨r.urlPath, body⟩) <;>
              simp [ResponseWriter.statusCode, deadFailed, deadAttempted, deadSucceeded,
                deadResponse, failResponse, okResponse]
          | ok id =>
            rw [publish_primary_ok_state env r body id hsig hb hv ht hp]
            simp [ResponseWriter.statusCode, deadFailed, okResponse]

/-- The sample request on a bus that rejects everything. -/
theorem status_500_iff_witness :
    (failEnv (ascii "quota exceeded")).cfg.deadTopic ≠ []
      ∧ ((Publish (failEnv (ascii "quota exceeded")) sampleReq State.init).w.statusCode = 500
        ↔ deadFailed (Publish (failEnv (ascii "quota exceeded")) sampleReq State.init).trace
            = true) :=
  ⟨by decide, (status_500_iff (failEnv (ascii "quota exceeded")) sampleReq (by decide)).1⟩

/-- C7, as stated, fails: two runs that differ only in the error returned by
the bus are both answered with status 500, but with different bodies, each
quoting the error text. -/
theorem publish_error_in_response :
    (Publish (failEnv (ascii "quota exceeded")) sampleReq State.init).w
        = ⟨some 500, ascii "failed to publish message: quota exceeded\n"⟩
      ∧ (Publish (failEnv (ascii "rpc error: 10.0.0.7:443 unreachable")) sampleReq
          State.init).w
        = ⟨some 500,
            ascii "failed to publish message: rpc error: 10.0.0.7:443 unreachable\n"⟩
      ∧ (Publish (failEnv (ascii "quota exceeded")) sampleReq State.init).w.body
        ≠ (Publish (failEnv (ascii "rpc error: 10.0.0.7:443 unreachable")) sampleReq
            State.init).w.body := by
  rw [publish_primary_err_state (failEnv (ascii "quota exceeded")) sampleReq sampleBody
      (ascii "quota exceeded") (by decide) rfl sampleSig_valid (by decide) (by decide) rfl,
    publish_primary_err_state (failEnv (ascii "rpc error: 10.0.0.7:443 unreachable"))
      sampleReq sampleBody (ascii "rpc error: 10.0.0.7:443 unreachable")
      (by decide) rfl sampleSig_valid (by decide) (by decide) rfl]
  decide

/-- C7, amended: for an authenticated request whose primary publish fails with
`e1` and whose dead-letter publish fails with `e2`, the response has status 500
and its body is `"failed to publish message: "` followed by the text of the
dead-letter error `e2` and a newline; the primary error `e1` does not appear
in the response. -/
theorem publish_both_fail (env : Env) (r : Request) (body : List Byte) (e1 e2 : GoError)
    (hsig : headerGet r.sigValues ≠ []) (hb : r.body = Except.ok body)
    (hv : IsValidSignatureForStringBody body (headerGet r.sigValues) env.cfg.apiKey = true)
    (ht : resolveTopic r.urlPath ≠ []) (hd : env.cfg.deadTopic ≠ [])
    (hp : env.bus [Event.readBody] (resolveTopic r.urlPath) body = Except.error e1)
    (hdp : env.bus [Event.readBody,
              Event.publish Site.primary (resolveTopic r.urlPath) body (Except.error e1)]
            env.cfg.deadTopic (env.marshal { RequestPath := r.urlPath, Data := body })
              = Except.error e2) :
    (Publish env r State.init).w.statusCode = 500
      ∧ (Publish env r State.init).w.body
          = ascii "failed to publish message: " ++ e2 ++ ascii "\n" := by
  rw [publish_primary_err_state env r body e1 hsig hb hv ht hd hp]
  simp [hdp, deadResponse, failResponse, ResponseWriter.statusCode]

/-- The sample request on a bus that rejects everything with `"boom"`. -/
theorem publish_both_fail_witness :
    (Publish (failEnv (ascii "boom")) sampleReq State.init).w.statusCode = 500
      ∧ (Publish (failEnv (ascii "boom")) sampleReq State.init).w.body
          = ascii "failed to publish message: " ++ ascii "boom" ++ ascii "\n" :=
  publish_both_fail (failEnv (ascii "boom")) sampleReq sampleBody (ascii "boom") (ascii "boom")
    (by decide) rfl sampleSig_valid (by decide) (by decide) rfl rfl

end Publisher
